import Mathlib

/-!
# Verification of the loadBot metrics pipeline

Shallow embedding of the load-test engine's pure core:
`computeMetrics` / `percentile` (src/lib/store.ts), the load-pattern
function (src/lib/load-patterns.ts), the threshold evaluator and
auto-stop policy (src/lib/verdict.ts), the safety scorer
(src/lib/safety-score.ts), the history ring (src/lib/history.ts) and
the result classification of the HTTP requester (src/lib/engine.ts).

JavaScript numbers are modelled as rationals (`ℚ`); `Math.round` is
`⌊x + 1/2⌋`, `Math.floor` is `⌊·⌋`, `Math.ceil` is `⌈·⌉`.  Human-readable
message / explanation strings carried by verdict reasons and safety
scores are omitted: they are presentation data and no property below
concerns them.
-/

namespace LoadBot

/-- JavaScript `Math.round`: round half towards positive infinity. -/
def jsRound (x : ℚ) : ℤ := ⌊x + 1 / 2⌋

/-- `Math.round(x * 100) / 100` — round to two decimals, as used throughout
`store.ts` / `metrics.ts`. -/
def round2 (x : ℚ) : ℚ := (jsRound (x * 100) : ℚ) / 100

/-- src/lib/types.ts `RequestResult`. -/
structure RequestResult where
  responseTimeMs : ℚ
  success : Bool
  statusCode : Option ℕ := none
  error : Option String := none
  timestamp : ℤ
deriving DecidableEq, Repr

/-- src/lib/types.ts `LoadTestMetrics`.  All numeric fields are JS numbers,
modelled as `ℚ` (counts are produced as naturals by `computeMetrics` but the
type does not restrict them). -/
structure LoadTestMetrics where
  totalRequests : ℚ
  successfulRequests : ℚ
  failedRequests : ℚ
  errorRatePercentage : ℚ
  requestsPerSecond : ℚ
  avgResponseTime : ℚ
  minResponseTime : ℚ
  maxResponseTime : ℚ
  p95ResponseTime : ℚ
  p99ResponseTime : ℚ
  timeoutCount : ℚ
  timeoutRatePercentage : ℚ
deriving DecidableEq, Repr

/-- src/lib/store.ts (metrics part) `percentile`: linear interpolation at
fractional rank `(length − 1) * p` of an ascending-sorted list.  JS
out-of-range indexing is modelled by `getD _ 0`; all uses keep the indices in
range. -/
def percentile (sortedValues : List ℚ) (p : ℚ) : ℚ :=
  if sortedValues.length = 0 then 0
  else
    let index : ℚ := ((sortedValues.length : ℚ) - 1) * p
    let lower : ℤ := ⌊index⌋
    let upper : ℤ := ⌈index⌉
    if lower = upper then sortedValues.getD lower.toNat 0
    else
      sortedValues.getD lower.toNat 0 +
        (index - (lower : ℚ)) *
          (sortedValues.getD upper.toNat 0 - sortedValues.getD lower.toNat 0)

/-- The successful response times of a result list, in input order
(`results.filter(r => r.success).map(r => r.responseTimeMs)`). -/
def successTimes (results : List RequestResult) : List ℚ :=
  (results.filter fun r => r.success).map fun r => r.responseTimeMs

/-- The successful response times sorted ascending
(`[...responseTimes].sort((a, b) => a - b)`; on numbers the sorted output is
the unique ascending permutation, modelled by insertion sort). -/
def sortedSuccessTimes (results : List RequestResult) : List ℚ :=
  (successTimes results).insertionSort (· ≤ ·)

/-- src/lib/store.ts (metrics part) `computeMetrics`. -/
def computeMetrics (results : List RequestResult) (durationSeconds : ℚ) :
    LoadTestMetrics :=
  let total : ℚ := (results.length : ℚ)
  let successful : ℚ := ((results.filter fun r => r.success).length : ℚ)
  let failed : ℚ := total - successful
  let timeoutCount : ℚ :=
    ((results.filter fun r => r.error = some "timeout").length : ℚ)
  let errorRate : ℚ := if total > 0 then round2 (failed / total * 100) else 0
  let timeoutRatePercentage : ℚ :=
    if total > 0 then round2 (timeoutCount / total * 100) else 0
  let rps : ℚ :=
    if durationSeconds > 0 then round2 (total / durationSeconds) else 0
  let responseTimes := successTimes results
  let sorted := sortedSuccessTimes results
  let avgResponseTime : ℚ :=
    if responseTimes.length > 0 then
      round2 (responseTimes.sum / (responseTimes.length : ℚ))
    else 0
  let minResponseTime : ℚ := if sorted.length > 0 then sorted.getD 0 0 else 0
  let maxResponseTime : ℚ :=
    if sorted.length > 0 then sorted.getD (sorted.length - 1) 0 else 0
  let p95ResponseTime : ℚ :=
    if sorted.length > 0 then round2 (percentile sorted (95 / 100)) else 0
  let p99ResponseTime : ℚ :=
    if sorted.length > 0 then round2 (percentile sorted (99 / 100)) else 0
  { totalRequests := total
    successfulRequests := successful
    failedRequests := failed
    errorRatePercentage := errorRate
    requestsPerSecond := rps
    avgResponseTime := avgResponseTime
    minResponseTime := minResponseTime
    maxResponseTime := maxResponseTime
    p95ResponseTime := p95ResponseTime
    p99ResponseTime := p99ResponseTime
    timeoutCount := timeoutCount
    timeoutRatePercentage := timeoutRatePercentage }

/-! ## Load patterns (src/lib/load-patterns.ts) -/

/-- src/lib/types.ts `LoadPatternType`. -/
inductive LoadPatternType
  | fixed_concurrency
  | fixed_rps
  | ramp_up
  | spike
deriving DecidableEq, Repr

/-- src/lib/types.ts `LoadPatternConfig`. -/
structure LoadPatternConfig where
  type : LoadPatternType
  targetRps : Option ℚ := none
  rampUpSeconds : Option ℚ := none
  spikeConcurrency : Option ℚ := none
  spikeDurationSeconds : Option ℚ := none
deriving DecidableEq, Repr

/-- src/lib/load-patterns.ts `getConcurrencyAtWithDuration`. -/
def getConcurrencyAtWithDuration (pattern : Option LoadPatternConfig)
    (timeSinceStartMs : ℚ) (durationSeconds : ℚ) (defaultConcurrency : ℚ) : ℚ :=
  match pattern with
  | none => defaultConcurrency
  | some pat =>
    if pat.type = .fixed_concurrency ∨ pat.type = .fixed_rps then
      defaultConcurrency
    else
      let timeSec := timeSinceStartMs / 1000
      if pat.type = .ramp_up then
        let rampSec := pat.rampUpSeconds.getD 10
        if timeSec ≥ rampSec then defaultConcurrency
        else
          let ratio := timeSec / rampSec
          max 1 (⌊defaultConcurrency * ratio⌋ : ℚ)
      else if pat.type = .spike then
        let spikeDur := pat.spikeDurationSeconds.getD 5
        let spikeStart := max 0 (durationSeconds - spikeDur)
        let spikeConc := pat.spikeConcurrency.getD (defaultConcurrency * 2)
        if timeSec ≥ spikeStart ∧ timeSec < spikeStart + spikeDur then spikeConc
        else defaultConcurrency
      else defaultConcurrency

/-- src/lib/load-patterns.ts `getDelayMs`. -/
def getDelayMs (pattern : Option LoadPatternConfig) (concurrency : ℚ) : ℚ :=
  match pattern with
  | none => 0
  | some pat =>
    match pat.targetRps with
    | none => 0
    | some rps =>
      if pat.type ≠ .fixed_rps ∨ rps ≤ 0 then 0
      else 1000 / rps * concurrency

/-! ## Threshold evaluation (src/lib/verdict.ts) -/

/-- src/lib/types.ts `PerformanceThresholds`. -/
structure PerformanceThresholds where
  maxErrorRatePercent : Option ℚ := none
  maxP95LatencyMs : Option ℚ := none
  minSuccessRatePercent : Option ℚ := none
deriving DecidableEq, Repr

/-- src/lib/types.ts `ThresholdVerdict`. -/
inductive ThresholdVerdict
  | PASS
  | DEGRADED
  | FAIL
deriving DecidableEq, Repr

/-- The keys of `PerformanceThresholds` — the possible `threshold` fields of a
`VerdictReason`. -/
inductive ThresholdKey
  | maxErrorRatePercent
  | maxP95LatencyMs
  | minSuccessRatePercent
deriving DecidableEq, Repr

/-- src/lib/types.ts `VerdictReason` (the human-readable `message` string is
omitted; no claim concerns it). -/
structure VerdictReason where
  threshold : ThresholdKey
  actual : Option ℚ := none
  limit : Option ℚ := none
deriving DecidableEq, Repr

/-- Result triple of `evaluateThresholds`. -/
structure ThresholdEvalResult where
  verdict : ThresholdVerdict
  reasons : List VerdictReason
  firstViolationAt : Option ℤ
deriving DecidableEq, Repr

/-- The success rate used by the `minSuccessRatePercent` check of
src/lib/verdict.ts: `successful/total·100`, taken as 100 when there are no
requests yet. -/
def successRateOf (metrics : LoadTestMetrics) : ℚ :=
  if metrics.totalRequests > 0 then
    metrics.successfulRequests / metrics.totalRequests * 100
  else 100

/-- The `maxErrorRatePercent` check of src/lib/verdict.ts
`evaluateThresholds`: the reason pushed, if any. -/
def errReasonOf (metrics : LoadTestMetrics) (th : PerformanceThresholds) :
    Option VerdictReason :=
  match th.maxErrorRatePercent with
  | some limit =>
    if metrics.errorRatePercentage > limit then
      some ⟨.maxErrorRatePercent, some metrics.errorRatePercentage, some limit⟩
    else none
  | none => none

/-- The `minSuccessRatePercent` check of src/lib/verdict.ts
`evaluateThresholds`: the reason pushed, if any. -/
def succReasonOf (metrics : LoadTestMetrics) (th : PerformanceThresholds) :
    Option VerdictReason :=
  match th.minSuccessRatePercent with
  | some limit =>
    if successRateOf metrics < limit then
      some ⟨.minSuccessRatePercent, some (successRateOf metrics), some limit⟩
    else none
  | none => none

/-- The `maxP95LatencyMs` check of src/lib/verdict.ts `evaluateThresholds`:
the reason pushed, if any. -/
def p95ReasonOf (metrics : LoadTestMetrics) (th : PerformanceThresholds) :
    Option VerdictReason :=
  match th.maxP95LatencyMs with
  | some limit =>
    if metrics.p95ResponseTime > limit then
      some ⟨.maxP95LatencyMs, some metrics.p95ResponseTime, some limit⟩
    else none
  | none => none

/-- src/lib/verdict.ts `evaluateThresholds`.  `Date.now()` is passed in as the
explicit parameter `now`.  The source accumulates `reasons` and escalates a
mutable `verdict` across three sequential checks; here each check yields an
optional reason and the accumulation is spelled out in the same order: the
two critical checks each set the verdict to FAIL, the P95 check escalates
PASS to DEGRADED and anything else to FAIL. -/
def evaluateThresholds (metrics : LoadTestMetrics)
    (thresholds : Option PerformanceThresholds) (now : ℤ) : ThresholdEvalResult :=
  match thresholds with
  | none => ⟨.PASS, [], none⟩
  | some th =>
    let errReason := errReasonOf metrics th
    let succReason := succReasonOf metrics th
    let p95Reason := p95ReasonOf metrics th
    let verdictAfterCritical : ThresholdVerdict :=
      if errReason.isSome ∨ succReason.isSome then .FAIL else .PASS
    let verdict : ThresholdVerdict :=
      if p95Reason.isSome then
        if verdictAfterCritical = .PASS then .DEGRADED else .FAIL
      else verdictAfterCritical
    let reasons : List VerdictReason :=
      errReason.toList ++ succReason.toList ++ p95Reason.toList
    let firstViolationAt : Option ℤ :=
      if reasons.length > 0 then some now else none
    ⟨verdict, reasons, firstViolationAt⟩

/-- src/lib/verdict.ts `shouldAutoStop`. -/
def shouldAutoStop (verdict : ThresholdVerdict) (reasons : List VerdictReason) :
    Bool :=
  if verdict ≠ .FAIL then false
  else
    reasons.any fun r =>
      r.threshold = ThresholdKey.maxErrorRatePercent ∨
        r.threshold = ThresholdKey.minSuccessRatePercent

/-! ## Safety scorer (src/lib/safety-score.ts) -/

inductive SafetyLabel
  | SAFE
  | WARNING
  | DANGEROUS
deriving DecidableEq, Repr

/-- src/lib/types.ts `SafetyScore` (the `explanation` string is omitted; no
claim concerns it). -/
structure SafetyScore where
  score : ℤ
  label : SafetyLabel
deriving DecidableEq, Repr

def HTTP_ERROR_WEIGHT : ℚ := 6 / 10
def HTTP_ERROR_CAP : ℚ := 40
def TIMEOUT_WEIGHT : ℚ := 12 / 10
def TIMEOUT_CAP : ℚ := 30
def P95_THRESHOLD_MS : ℚ := 500
def P95_PENALTY_PER_100MS : ℚ := 3
def P95_CAP : ℚ := 25
def AVG_THRESHOLD_MS : ℚ := 300
def AVG_PENALTY_PER_100MS : ℚ := 1
def AVG_CAP : ℚ := 10
def LOW_RPS_THRESHOLD : ℚ := 1
def LOW_RPS_PENALTY : ℚ := 5

/-- src/lib/safety-score.ts `computeSafetyScore`. -/
def computeSafetyScore (metrics : LoadTestMetrics) : SafetyScore :=
  let httpErrorCount := metrics.failedRequests - metrics.timeoutCount
  let httpErrorRate : ℚ :=
    if metrics.totalRequests > 0 then
      httpErrorCount / metrics.totalRequests * 100
    else 0
  let httpErrorPenalty := min (httpErrorRate * HTTP_ERROR_WEIGHT) HTTP_ERROR_CAP
  let score1 : ℚ := 100 - httpErrorPenalty
  let timeoutPenalty :=
    min (metrics.timeoutRatePercentage * TIMEOUT_WEIGHT) TIMEOUT_CAP
  let score2 := score1 - timeoutPenalty
  let score3 :=
    if metrics.p95ResponseTime > P95_THRESHOLD_MS then
      let excessMs := metrics.p95ResponseTime - P95_THRESHOLD_MS
      score2 - min (excessMs / 100 * P95_PENALTY_PER_100MS) P95_CAP
    else score2
  let score4 :=
    if metrics.avgResponseTime > AVG_THRESHOLD_MS then
      let excessMs := metrics.avgResponseTime - AVG_THRESHOLD_MS
      score3 - min (excessMs / 100 * AVG_PENALTY_PER_100MS) AVG_CAP
    else score3
  let score5 :=
    if metrics.requestsPerSecond > 0 ∧ metrics.requestsPerSecond < LOW_RPS_THRESHOLD
    then score4 - LOW_RPS_PENALTY
    else score4
  let finalScore : ℤ := max 0 (min 100 (jsRound score5))
  let label : SafetyLabel :=
    if finalScore < 50 then .DANGEROUS
    else if finalScore < 80 then .WARNING
    else .SAFE
  ⟨finalScore, label⟩

/-! ## History ring (src/lib/history.ts)

The source keeps a module-level mutable array; here the array is threaded
explicitly, newest first. -/

def MAX_HISTORY : ℕ := 100

/-- src/lib/types.ts `TestHistoryRecord`, reduced to the identifying field:
the claims about the history ring do not inspect the snapshot payload, and
carrying it would only rename the type parameter.  The ring is therefore
modelled generically over the record type. -/
def addToHistory {α : Type} (record : α) (history : List α) : List α :=
  let h := record :: history
  if h.length > MAX_HISTORY then h.dropLast else h

/-- src/lib/history.ts `getHistory` (returns a copy of the array; a pure list
is its own copy). -/
def getHistory {α : Type} (history : List α) : List α := history

/-! ## HTTP requester outcome classification (src/lib/engine.ts) -/

/-- What the `fetch` in `runOneRequest` can produce: a response with a status
code, or a thrown error with a message. -/
inductive FetchOutcome
  | response (status : ℕ)
  | fetchError (message : String)
deriving DecidableEq, Repr

/-- `message.includes("abort")` — substring test, modelled via `splitOn`. -/
def includesAbort (message : String) : Bool :=
  (message.splitOn "abort").length > 1

/-- src/lib/engine.ts `runOneRequest`, with the transport effects abstracted
into the `outcome` and the measured times (`start = Date.now()` before the
request, `elapsed` its measured duration).  Classification follows the
source: a response is a success iff its status is `< 400` and carries no
error tag; a thrown error is a failure tagged `"timeout"` when the message
indicates an abort, and tagged with the raw message otherwise. -/
def runOneRequest (outcome : FetchOutcome) (elapsed : ℚ) (start : ℤ) :
    RequestResult :=
  match outcome with
  | .response status =>
    { responseTimeMs := elapsed
      success := decide (status < 400)
      statusCode := some status
      error := none
      timestamp := start }
  | .fetchError message =>
    let isTimeout :=
      includesAbort message || message = "The operation was aborted."
    { responseTimeMs := elapsed
      success := false
      statusCode := none
      error := some (if isTimeout then "timeout" else message)
      timestamp := start }

/-! ## Claim theorems -/

/-- Helper: successes and non-successes partition a result list. -/
theorem length_filter_success_add_not (results : List RequestResult) :
    (results.filter fun r => r.success).length +
      (results.filter fun r => !r.success).length = results.length := by
  induction results with
  | nil => rfl
  | cons r rs ih =>
    cases h : r.success <;> simp [List.filter_cons, h, ← ih] <;> omega

/-- Helper: timeout-tagged results are at most the failed ones, whenever an
error tag implies failure. -/
theorem length_filter_timeout_le (results : List RequestResult)
    (herr : ∀ r ∈ results, r.error.isSome → r.success = false) :
    (results.filter fun r => decide (r.error = some "timeout")).length ≤
      (results.filter fun r => !r.success).length := by
  induction results with
  | nil => simp
  | cons r rs ih =>
    have ih' := ih fun x hx => herr x (List.mem_cons_of_mem r hx)
    by_cases ht : r.error = some "timeout"
    · have hs : r.success = false := herr r (List.mem_cons_self r rs) (by simp [ht])
      simp only [List.filter_cons, ht, hs]
      simpa using Nat.add_le_add_right ih' 1
    · simp only [List.filter_cons, ht]
      cases h : r.success <;> simp <;> omega

/-- C1: for results whose error tag is only present on failures — as the HTTP
requester produces them — `computeMetrics` satisfies
`successfulRequests + failedRequests = totalRequests` and
`timeoutCount ≤ failedRequests`. -/
theorem metrics_count_invariant (results : List RequestResult) (d : ℚ)
    (herr : ∀ r ∈ results, r.error.isSome → r.success = false) :
    (∀ (o : FetchOutcome) (e : ℚ) (s : ℤ),
        (runOneRequest o e s).error.isSome → (runOneRequest o e s).success = false) ∧
    (computeMetrics results d).successfulRequests +
        (computeMetrics results d).failedRequests =
      (computeMetrics results d).totalRequests ∧
    (computeMetrics results d).timeoutCount ≤
      (computeMetrics results d).failedRequests := by
  refine ⟨?_, ?_, ?_⟩
  · rintro (status | message) e s h
    · simp [runOneRequest] at h
    · simp [runOneRequest]
  · simp only [computeMetrics]
    ring
  · simp only [computeMetrics]
    have hle := length_filter_timeout_le results herr
    have hsplit := length_filter_success_add_not results
    have h1 : (results.filter fun r : RequestResult =>
          decide (r.error = some "timeout")).length +
        (results.filter fun r : RequestResult => r.success).length ≤
        results.length := by omega
    have h2 : ((results.filter fun r : RequestResult =>
          decide (r.error = some "timeout")).length : ℚ) +
        ((results.filter fun r : RequestResult => r.success).length : ℚ) ≤
        (results.length : ℚ) := by exact_mod_cast h1
    linarith

/-- C1 witness. -/
theorem metrics_count_invariant_witness :
    (∀ r ∈ ([⟨7, true, none, none, 0⟩] : List RequestResult),
        r.error.isSome → r.success = false) ∧
    ((computeMetrics [⟨7, true, none, none, 0⟩] 1).successfulRequests +
        (computeMetrics [⟨7, true, none, none, 0⟩] 1).failedRequests =
      (computeMetrics [⟨7, true, none, none, 0⟩] 1).totalRequests ∧
      (computeMetrics [⟨7, true, none, none, 0⟩] 1).timeoutCount ≤
        (computeMetrics [⟨7, true, none, none, 0⟩] 1).failedRequests) := by
  have h : ∀ r ∈ ([⟨7, true, none, none, 0⟩] : List RequestResult),
      r.error.isSome → r.success = false := by
    intro r hr
    simp only [List.mem_singleton] at hr
    subst hr
    simp
  exact ⟨h, (metrics_count_invariant [⟨7, true, none, none, 0⟩] 1 h).2⟩

/-- Unfolding of `getConcurrencyAtWithDuration` for the ramp_up pattern. -/
theorem getConcurrency_ramp (rps ru sc sd : Option ℚ) (tMs D N : ℚ) :
    getConcurrencyAtWithDuration (some ⟨.ramp_up, rps, ru, sc, sd⟩) tMs D N =
      if tMs / 1000 ≥ ru.getD 10 then N
      else max 1 (⌊N * (tMs / 1000 / ru.getD 10)⌋ : ℚ) := rfl

/-- Unfolding of `getConcurrencyAtWithDuration` for the spike pattern. -/
theorem getConcurrency_spike (rps ru sc sd : Option ℚ) (tMs D N : ℚ) :
    getConcurrencyAtWithDuration (some ⟨.spike, rps, ru, sc, sd⟩) tMs D N =
      if tMs / 1000 ≥ max 0 (D - sd.getD 5) ∧
          tMs / 1000 < max 0 (D - sd.getD 5) + sd.getD 5 then
        sc.getD (N * 2)
      else N := rfl

/-- Unfolding of `getConcurrencyAtWithDuration` for fixed_concurrency. -/
theorem getConcurrency_fixed (rps ru sc sd : Option ℚ) (tMs D N : ℚ) :
    getConcurrencyAtWithDuration (some ⟨.fixed_concurrency, rps, ru, sc, sd⟩)
      tMs D N = N := rfl

/-- Unfolding of `getConcurrencyAtWithDuration` for fixed_rps. -/
theorem getConcurrency_fixedRps (rps ru sc sd : Option ℚ) (tMs D N : ℚ) :
    getConcurrencyAtWithDuration (some ⟨.fixed_rps, rps, ru, sc, sd⟩)
      tMs D N = N := rfl

/-- C5: `getConcurrencyAtWithDuration` case analysis — ramp_up follows
`max(1, ⌊N·t/R⌋)` before the ramp and `N` after it; spike returns the spike
concurrency exactly on `[max(0, D−Δ), max(0, D−Δ)+Δ)` and `N` elsewhere;
fixed_concurrency, fixed_rps and an absent pattern return `N`.  Times are in
ms, compared in seconds (`t = tMs/1000`). -/
theorem getConcurrencyAtWithDuration_cases (tMs D N : ℚ) (hN : 1 ≤ N) :
    (∀ R : ℚ, tMs / 1000 < R →
      getConcurrencyAtWithDuration (some ⟨.ramp_up, none, some R, none, none⟩)
          tMs D N = max 1 (⌊N * tMs / 1000 / R⌋ : ℚ)) ∧
    (∀ R : ℚ, R ≤ tMs / 1000 →
      getConcurrencyAtWithDuration (some ⟨.ramp_up, none, some R, none, none⟩)
          tMs D N = N) ∧
    (∀ S Δ : ℚ,
      (max 0 (D - Δ) ≤ tMs / 1000 ∧ tMs / 1000 < max 0 (D - Δ) + Δ →
        getConcurrencyAtWithDuration
            (some ⟨.spike, none, none, some S, some Δ⟩) tMs D N = S) ∧
      (¬(max 0 (D - Δ) ≤ tMs / 1000 ∧ tMs / 1000 < max 0 (D - Δ) + Δ) →
        getConcurrencyAtWithDuration
            (some ⟨.spike, none, none, some S, some Δ⟩) tMs D N = N)) ∧
    (∀ rps ru sc sd,
      getConcurrencyAtWithDuration (some ⟨.fixed_concurrency, rps, ru, sc, sd⟩)
          tMs D N = N) ∧
    (∀ rps ru sc sd,
      getConcurrencyAtWithDuration (some ⟨.fixed_rps, rps, ru, sc, sd⟩)
          tMs D N = N) ∧
    getConcurrencyAtWithDuration none tMs D N = N := by
  refine ⟨?_, ?_, ?_, fun rps ru sc sd => getConcurrency_fixed rps ru sc sd tMs D N,
    fun rps ru sc sd => getConcurrency_fixedRps rps ru sc sd tMs D N, rfl⟩
  · intro R hR
    rw [getConcurrency_ramp]
    simp only [Option.getD_some]
    rw [if_neg (not_le.mpr hR), mul_div_assoc, mul_div_assoc]
  · intro R hR
    rw [getConcurrency_ramp]
    simp only [Option.getD_some]
    rw [if_pos hR]
  · intro S Δ
    constructor
    · intro hin
      rw [getConcurrency_spike]
      simp only [Option.getD_some]
      rw [if_pos ⟨hin.1, hin.2⟩]
    · intro hout
      rw [getConcurrency_spike]
      simp only [Option.getD_some]
      rw [if_neg fun h => hout ⟨h.1, h.2⟩]

/-- C5 witness: ramp_up with N = 10, D = 10, R = 10 at t = 5 s gives
`max 1 ⌊10·5/10⌋ = 5`, and at t = 10 s gives 10. -/
theorem getConcurrencyAtWithDuration_cases_witness :
    (1:ℚ) ≤ 10 ∧ (5000:ℚ) / 1000 < 10 ∧
    getConcurrencyAtWithDuration
        (some ⟨.ramp_up, none, some 10, none, none⟩) 5000 10 10 =
      max 1 (⌊(10:ℚ) * 5000 / 1000 / 10⌋ : ℚ) ∧
    getConcurrencyAtWithDuration
        (some ⟨.ramp_up, none, some 10, none, none⟩) 10000 10 10 = 10 := by
  refine ⟨by norm_num, by norm_num, ?_, ?_⟩
  · exact (getConcurrencyAtWithDuration_cases 5000 10 10 (by norm_num)).1 10
      (by norm_num)
  · exact (getConcurrencyAtWithDuration_cases 10000 10 10 (by norm_num)).2.1 10
      (by norm_num)

/-- C6 counterexample: for the spike pattern with `spikeConcurrency` unset,
the code falls back to `2·N`, which exceeds the claimed bound
`max(N, spikeConcurrency ?? N) = N`.  At N = 1, D = 10, t = 5000 ms the code
returns 2 > 1 even though 1 ≤ N and 0 ≤ t ≤ D·1000. -/
theorem pattern_bounds_counterexample :
    (1:ℚ) ≤ 1 ∧ (0:ℚ) ≤ 5000 ∧ (5000:ℚ) ≤ 10 * 1000 ∧
    ¬(getConcurrencyAtWithDuration
        (some ⟨.spike, none, none, none, none⟩) 5000 10 1 ≤
      max 1 ((LoadPatternConfig.mk .spike none none none none).spikeConcurrency.getD 1)) := by
  refine ⟨le_refl 1, by norm_num, by norm_num, ?_⟩
  have hval : getConcurrencyAtWithDuration
      (some ⟨.spike, none, none, none, none⟩) 5000 10 1 = 2 := by
    rw [getConcurrency_spike]
    simp only [Option.getD_none]
    rw [if_pos (by constructor <;> norm_num)]
    norm_num
  rw [hval]
  norm_num

/-- The concurrency bound of claim C6 in its amended form: `N` for an absent
pattern, otherwise `max(N, spikeConcurrency ?? 2·N)` — the fallback for an
unset `spikeConcurrency` is the code's `2·N`, not the claimed `N`. -/
def patternConcurrencyBound : Option LoadPatternConfig → ℚ → ℚ
  | none, N => N
  | some pat, N => max N (pat.spikeConcurrency.getD (2 * N))

/-- C6 (amended): with the fallback spike concurrency `2·N` in the bound and
a set `spikeConcurrency` required to be ≥ 1, the pattern value always lies
between 1 and `max(N, spikeConcurrency ?? 2·N)`. -/
theorem pattern_bounds (p : Option LoadPatternConfig) (tMs D N : ℚ)
    (hN : 1 ≤ N)
    (hs : ∀ pat, p = some pat → ∀ s, pat.spikeConcurrency = some s → 1 ≤ s)
    (ht0 : 0 ≤ tMs) (htD : tMs ≤ D * 1000) :
    1 ≤ getConcurrencyAtWithDuration p tMs D N ∧
    getConcurrencyAtWithDuration p tMs D N ≤ patternConcurrencyBound p N := by
  match p with
  | none => exact ⟨hN, le_refl N⟩
  | some pat =>
    rcases pat with ⟨ty, rps, ru, sc, sd⟩
    simp only [patternConcurrencyBound]
    cases ty
    case fixed_concurrency =>
      rw [getConcurrency_fixed]
      exact ⟨hN, le_max_left _ _⟩
    case fixed_rps =>
      rw [getConcurrency_fixedRps]
      exact ⟨hN, le_max_left _ _⟩
    case ramp_up =>
      rw [getConcurrency_ramp]
      split_ifs with hramp
      · exact ⟨hN, le_max_left _ _⟩
      · push_neg at hramp
        set R := (Option.getD ru 10 : ℚ) with hR
        have ht1000 : 0 ≤ tMs / 1000 := by positivity
        have hRpos : 0 < R := lt_of_le_of_lt ht1000 hramp
        have hratio : tMs / 1000 / R < 1 := (div_lt_one hRpos).mpr hramp
        have hratio0 : 0 ≤ tMs / 1000 / R := by positivity
        have hxN : N * (tMs / 1000 / R) < N := by nlinarith
        refine ⟨le_max_left _ _, le_trans (max_le hN ?_) (le_max_left _ _)⟩
        exact le_trans (Int.floor_le _) (le_of_lt hxN)
    case spike =>
      rw [getConcurrency_spike]
      split_ifs with hwin
      · rcases hsc : sc with _ | s
        · subst hsc
          simp only [Option.getD_none]
          constructor
          · linarith
          · rw [show N * 2 = 2 * N by ring]
            exact le_max_right _ _
        · have h1s : 1 ≤ s := hs _ rfl s (by rw [hsc])
          subst hsc
          simp only [Option.getD_some]
          exact ⟨h1s, le_max_right _ _⟩
      · exact ⟨hN, le_max_left _ _⟩

/-- C6 (amended) witness: the spike pattern of scenario S5
(N = 3, D = 10, S = 12, Δ = 2) at t = 9 s yields a value within
[1, max(3, 12)]. -/
theorem pattern_bounds_witness :
    (1:ℚ) ≤ 3 ∧
    (∀ pat, (some ⟨LoadPatternType.spike, none, none, some 12, some 2⟩ :
        Option LoadPatternConfig) = some pat →
      ∀ s : ℚ, pat.spikeConcurrency = some s → 1 ≤ s) ∧
    (0:ℚ) ≤ 9000 ∧ (9000:ℚ) ≤ 10 * 1000 ∧
    (1 ≤ getConcurrencyAtWithDuration
        (some ⟨.spike, none, none, some 12, some 2⟩) 9000 10 3 ∧
      getConcurrencyAtWithDuration
          (some ⟨.spike, none, none, some 12, some 2⟩) 9000 10 3 ≤
        patternConcurrencyBound (some ⟨.spike, none, none, some 12, some 2⟩) 3) := by
  have hs : ∀ pat, (some ⟨LoadPatternType.spike, none, none, some 12, some 2⟩ :
      Option LoadPatternConfig) = some pat →
      ∀ s : ℚ, pat.spikeConcurrency = some s → 1 ≤ s := by
    rintro pat ⟨rfl⟩ s hsc
    simp only [Option.some.injEq] at hsc
    rw [← hsc]
    norm_num
  exact ⟨by norm_num, hs, by norm_num, by norm_num,
    pattern_bounds (some ⟨.spike, none, none, some 12, some 2⟩) 9000 10 3
      (by norm_num) hs (by norm_num) (by norm_num)⟩

/-- An error-rate violation: `maxErrorRatePercent` is set and strictly
exceeded. -/
def errViolation (M : LoadTestMetrics) (th : PerformanceThresholds) : Prop :=
  ∃ l, th.maxErrorRatePercent = some l ∧ M.errorRatePercentage > l

/-- A success-rate violation: `minSuccessRatePercent` is set and the success
rate is strictly below it. -/
def succViolation (M : LoadTestMetrics) (th : PerformanceThresholds) : Prop :=
  ∃ l, th.minSuccessRatePercent = some l ∧ successRateOf M < l

/-- A P95 violation: `maxP95LatencyMs` is set and strictly exceeded. -/
def p95Violation (M : LoadTestMetrics) (th : PerformanceThresholds) : Prop :=
  ∃ l, th.maxP95LatencyMs = some l ∧ M.p95ResponseTime > l

/-- The error-rate check produces a reason exactly on a strict violation. -/
theorem errReasonOf_isSome_iff (M : LoadTestMetrics) (th : PerformanceThresholds) :
    (errReasonOf M th).isSome ↔ errViolation M th := by
  rcases h : th.maxErrorRatePercent with _ | l <;>
    simp [errReasonOf, errViolation, h]

/-- The success-rate check produces a reason exactly on a strict violation. -/
theorem succReasonOf_isSome_iff (M : LoadTestMetrics) (th : PerformanceThresholds) :
    (succReasonOf M th).isSome ↔ succViolation M th := by
  rcases h : th.minSuccessRatePercent with _ | l <;>
    simp [succReasonOf, succViolation, h]

/-- The P95 check produces a reason exactly on a strict violation. -/
theorem p95ReasonOf_isSome_iff (M : LoadTestMetrics) (th : PerformanceThresholds) :
    (p95ReasonOf M th).isSome ↔ p95Violation M th := by
  rcases h : th.maxP95LatencyMs with _ | l <;>
    simp [p95ReasonOf, p95Violation, h]

/-- Any reason produced by the error-rate check carries its key. -/
theorem errReasonOf_key (M : LoadTestMetrics) (th : PerformanceThresholds)
    (r : VerdictReason) (h : errReasonOf M th = some r) :
    r.threshold = .maxErrorRatePercent := by
  rcases hl : th.maxErrorRatePercent with _ | l
  · simp only [errReasonOf, hl] at h
    exact Option.noConfusion h
  · simp only [errReasonOf, hl] at h
    split_ifs at h with hgt
    cases h
    rfl

/-- Any reason produced by the success-rate check carries its key. -/
theorem succReasonOf_key (M : LoadTestMetrics) (th : PerformanceThresholds)
    (r : VerdictReason) (h : succReasonOf M th = some r) :
    r.threshold = .minSuccessRatePercent := by
  rcases hl : th.minSuccessRatePercent with _ | l
  · simp only [succReasonOf, hl] at h
    exact Option.noConfusion h
  · simp only [succReasonOf, hl] at h
    split_ifs at h with hlt
    cases h
    rfl

/-- Any reason produced by the P95 check carries its key. -/
theorem p95ReasonOf_key (M : LoadTestMetrics) (th : PerformanceThresholds)
    (r : VerdictReason) (h : p95ReasonOf M th = some r) :
    r.threshold = .maxP95LatencyMs := by
  rcases hl : th.maxP95LatencyMs with _ | l
  · simp only [p95ReasonOf, hl] at h
    exact Option.noConfusion h
  · simp only [p95ReasonOf, hl] at h
    split_ifs at h with hgt
    cases h
    rfl

/-- Membership with a given key in the concatenated reasons of
`evaluateThresholds` is equivalent to the corresponding check firing. -/
theorem evaluateThresholds_mem_key (M : LoadTestMetrics)
    (th : PerformanceThresholds) (now : ℤ) :
    ((∃ r ∈ (evaluateThresholds M (some th) now).reasons,
        r.threshold = ThresholdKey.maxErrorRatePercent) ↔ errViolation M th) ∧
    ((∃ r ∈ (evaluateThresholds M (some th) now).reasons,
        r.threshold = ThresholdKey.minSuccessRatePercent) ↔ succViolation M th) ∧
    ((∃ r ∈ (evaluateThresholds M (some th) now).reasons,
        r.threshold = ThresholdKey.maxP95LatencyMs) ↔ p95Violation M th) := by
  have hmem : ∀ r, r ∈ (evaluateThresholds M (some th) now).reasons ↔
      (errReasonOf M th = some r ∨ succReasonOf M th = some r ∨
        p95ReasonOf M th = some r) := by
    intro r
    simp [evaluateThresholds, Option.mem_toList, Option.mem_def]
  refine ⟨⟨?_, ?_⟩, ⟨?_, ?_⟩, ⟨?_, ?_⟩⟩
  · rintro ⟨r, hr, hkey⟩
    rcases (hmem r).mp hr with h | h | h
    · rw [← errReasonOf_isSome_iff]
      simp [h]
    · rw [succReasonOf_key M th r h] at hkey
      cases hkey
    · rw [p95ReasonOf_key M th r h] at hkey
      cases hkey
  · intro hviol
    obtain ⟨r, hr⟩ := Option.isSome_iff_exists.mp
      ((errReasonOf_isSome_iff M th).mpr hviol)
    exact ⟨r, (hmem r).mpr (Or.inl hr), errReasonOf_key M th r hr⟩
  · rintro ⟨r, hr, hkey⟩
    rcases (hmem r).mp hr with h | h | h
    · rw [errReasonOf_key M th r h] at hkey
      cases hkey
    · rw [← succReasonOf_isSome_iff]
      simp [h]
    · rw [p95ReasonOf_key M th r h] at hkey
      cases hkey
  · intro hviol
    obtain ⟨r, hr⟩ := Option.isSome_iff_exists.mp
      ((succReasonOf_isSome_iff M th).mpr hviol)
    exact ⟨r, (hmem r).mpr (Or.inr (Or.inl hr)), succReasonOf_key M th r hr⟩
  · rintro ⟨r, hr, hkey⟩
    rcases (hmem r).mp hr with h | h | h
    · rw [errReasonOf_key M th r h] at hkey
      cases hkey
    · rw [succReasonOf_key M th r h] at hkey
      cases hkey
    · rw [← p95ReasonOf_isSome_iff]
      simp [h]
  · intro hviol
    obtain ⟨r, hr⟩ := Option.isSome_iff_exists.mp
      ((p95ReasonOf_isSome_iff M th).mpr hviol)
    exact ⟨r, (hmem r).mpr (Or.inr (Or.inr hr)), p95ReasonOf_key M th r hr⟩

/-- The verdict of `evaluateThresholds` is FAIL exactly on a critical
violation and DEGRADED exactly on a P95-only violation. -/
theorem evaluateThresholds_verdict (M : LoadTestMetrics)
    (th : PerformanceThresholds) (now : ℤ) :
    ((evaluateThresholds M (some th) now).verdict = .FAIL ↔
      errViolation M th ∨ succViolation M th) ∧
    ((evaluateThresholds M (some th) now).verdict = .DEGRADED ↔
      ¬(errViolation M th ∨ succViolation M th) ∧ p95Violation M th) := by
  have he := errReasonOf_isSome_iff M th
  have hs := succReasonOf_isSome_iff M th
  have hp := p95ReasonOf_isSome_iff M th
  simp only [evaluateThresholds]
  by_cases h1 : (errReasonOf M th).isSome <;>
    by_cases h2 : (succReasonOf M th).isSome <;>
      by_cases h3 : (p95ReasonOf M th).isSome <;>
        simp only [h1, h2, h3] <;> simp_all <;> tauto

/-- C3: `evaluateThresholds` — absent thresholds give `(PASS, [], none)`;
the verdict is `FAIL` exactly when a strict error-rate or success-rate
violation occurs (equality with the limit is not a violation), `DEGRADED`
exactly when only the P95 limit is violated (escalation: PASS→DEGRADED,
FAIL stays FAIL); each reason kind appears exactly when its threshold is
violated, with the success rate taken as 100 when `totalRequests = 0`; and
`firstViolationAt` is set iff some reason was produced. -/
theorem evaluateThresholds_spec (M : LoadTestMetrics)
    (H : Option PerformanceThresholds) (now : ℤ) :
    (H = none → evaluateThresholds M H now = ⟨.PASS, [], none⟩) ∧
    ((evaluateThresholds M H now).firstViolationAt.isSome ↔
      (evaluateThresholds M H now).reasons ≠ []) ∧
    (∀ th, H = some th →
      (((evaluateThresholds M H now).verdict = .FAIL ↔
          errViolation M th ∨ succViolation M th) ∧
       ((evaluateThresholds M H now).verdict = .DEGRADED ↔
          ¬(errViolation M th ∨ succViolation M th) ∧ p95Violation M th) ∧
       ((∃ r ∈ (evaluateThresholds M H now).reasons,
           r.threshold = ThresholdKey.maxErrorRatePercent) ↔ errViolation M th) ∧
       ((∃ r ∈ (evaluateThresholds M H now).reasons,
           r.threshold = ThresholdKey.minSuccessRatePercent) ↔ succViolation M th) ∧
       ((∃ r ∈ (evaluateThresholds M H now).reasons,
           r.threshold = ThresholdKey.maxP95LatencyMs) ↔ p95Violation M th))) := by
  rcases H with _ | th
  · refine ⟨fun _ => rfl, ?_, ?_⟩
    · simp [evaluateThresholds]
    · rintro th ⟨⟩
  · refine ⟨by rintro ⟨⟩, ?_, ?_⟩
    · have hgen : ∀ (l : List VerdictReason),
          (if l.length > 0 then some now else none : Option ℤ).isSome ↔ l ≠ [] := by
        intro l
        split_ifs with hlen
        · simpa using List.length_pos.mp hlen
        · simp only [Option.isSome_none, Bool.false_eq_true, false_iff, ne_eq,
            not_not]
          exact List.length_eq_zero.mp (Nat.eq_zero_of_not_pos hlen)
      simp only [evaluateThresholds]
      exact hgen _
    · rintro th' hth'
      injection hth' with hth'
      subst hth'
      obtain ⟨hv1, hv2⟩ := evaluateThresholds_verdict M th now
      obtain ⟨hm1, hm2, hm3⟩ := evaluateThresholds_mem_key M th now
      exact ⟨hv1, hv2, hm1, hm2, hm3⟩

/-- C3 witness: with no thresholds configured the evaluator returns PASS with
no reasons and no violation timestamp. -/
theorem evaluateThresholds_spec_witness :
    evaluateThresholds
        ⟨0, 0, 0, 0, 0, 0, 0, 0, 0, 0, 0, 0⟩ none 0 = ⟨.PASS, [], none⟩ :=
  (evaluateThresholds_spec ⟨0, 0, 0, 0, 0, 0, 0, 0, 0, 0, 0, 0⟩ none 0).1 rfl

/-- C4: `shouldAutoStop` is true exactly on a FAIL verdict with a critical
(error-rate or success-rate) reason, and composed with `evaluateThresholds`
a run violating only `maxP95LatencyMs` never auto-stops. -/
theorem shouldAutoStop_spec (v : ThresholdVerdict) (rs : List VerdictReason) :
    (shouldAutoStop v rs = true ↔
      v = .FAIL ∧ ∃ r ∈ rs, r.threshold = ThresholdKey.maxErrorRatePercent ∨
        r.threshold = ThresholdKey.minSuccessRatePercent) ∧
    (∀ M th now, ¬errViolation M th → ¬succViolation M th →
      shouldAutoStop (evaluateThresholds M (some th) now).verdict
        (evaluateThresholds M (some th) now).reasons = false) := by
  constructor
  · constructor
    · intro h
      by_cases hv : v = .FAIL
      · subst hv
        refine ⟨rfl, ?_⟩
        rw [shouldAutoStop, if_neg (fun hne => hne rfl), List.any_eq_true] at h
        obtain ⟨r, hr, hdec⟩ := h
        exact ⟨r, hr, by simpa using hdec⟩
      · exfalso
        rw [shouldAutoStop, if_pos hv] at h
        cases h
    · rintro ⟨rfl, r, hr, hkey⟩
      rw [shouldAutoStop, if_neg (fun hne => hne rfl), List.any_eq_true]
      exact ⟨r, hr, by simpa using hkey⟩
  · intro M th now herr hsucc
    have hv : (evaluateThresholds M (some th) now).verdict ≠ .FAIL := by
      have hspec := evaluateThresholds_verdict M th now
      intro hfail
      exact (hspec.1.mp hfail).elim herr hsucc
    rw [shouldAutoStop, if_pos hv]

/-- C4 witness: a DEGRADED verdict caused only by the P95 threshold does not
auto-stop.  Metrics: p95 = 600 against a limit of 200 with no error-rate or
success-rate thresholds. -/
theorem shouldAutoStop_spec_witness :
    (shouldAutoStop .DEGRADED [⟨.maxP95LatencyMs, some 600, some 200⟩] = true ↔
      ThresholdVerdict.DEGRADED = .FAIL ∧
        ∃ r ∈ [(⟨.maxP95LatencyMs, some 600, some 200⟩ : VerdictReason)],
          r.threshold = ThresholdKey.maxErrorRatePercent ∨
            r.threshold = ThresholdKey.minSuccessRatePercent) ∧
    shouldAutoStop
        (evaluateThresholds ⟨10, 10, 0, 0, 1, 100, 50, 600, 600, 600, 0, 0⟩
          (some ⟨none, some 200, none⟩) 0).verdict
        (evaluateThresholds ⟨10, 10, 0, 0, 1, 100, 50, 600, 600, 600, 0, 0⟩
          (some ⟨none, some 200, none⟩) 0).reasons = false := by
  constructor
  · exact (shouldAutoStop_spec .DEGRADED [⟨.maxP95LatencyMs, some 600, some 200⟩]).1
  · refine (shouldAutoStop_spec .PASS []).2
      ⟨10, 10, 0, 0, 1, 100, 50, 600, 600, 600, 0, 0⟩ ⟨none, some 200, none⟩ 0 ?_ ?_
    · rintro ⟨l, hl, _⟩
      cases hl
    · rintro ⟨l, hl, _⟩
      cases hl

/-- Helper for C10: one insertion keeps the invariant
`state = inserted-so-far, newest first, trimmed to 100`. -/
theorem addToHistory_take {α : Type} (r : α) (L : List α) (hL : L.length ≤ MAX_HISTORY) :
    addToHistory r (L.take MAX_HISTORY) = (r :: L).take MAX_HISTORY := by
  rw [List.take_of_length_le hL]
  rw [addToHistory]
  split_ifs with hlen
  · have hlen' : L.length = MAX_HISTORY := by
      simp only [List.length_cons] at hlen
      omega
    rw [List.dropLast_eq_take]
    congr 1
  · rw [List.take_of_length_le]
    simp only [List.length_cons] at hlen ⊢
    omega

/-- Helper for C10: taking `n` of an append is insensitive to pre-trimming
the right part at `n`. -/
theorem take_append_take {α : Type} (a b : List α) (n : ℕ) :
    (a ++ b.take n).take n = (a ++ b).take n := by
  rw [List.take_append_eq_append_take, List.take_append_eq_append_take,
    List.take_take]
  congr 1
  rw [Nat.min_eq_left (Nat.sub_le n a.length)]

/-- Helper for C10: folding insertions over any starting state of at most
100 records yields the newest-first sequence trimmed to 100. -/
theorem foldl_addToHistory {α : Type} (recs : List α) :
    ∀ acc : List α, acc.length ≤ MAX_HISTORY →
      recs.foldl (fun h r => addToHistory r h) acc =
        (recs.reverse ++ acc).take MAX_HISTORY := by
  induction recs with
  | nil =>
    intro acc hacc
    simp only [List.foldl_nil, List.reverse_nil, List.nil_append]
    exact (List.take_of_length_le hacc).symm
  | cons r rs ih =>
    intro acc hacc
    have hstep : addToHistory r acc = (r :: acc).take MAX_HISTORY := by
      rw [← List.take_of_length_le hacc]
      rw [addToHistory_take r acc hacc, List.take_of_length_le hacc]
    have hlen : (addToHistory r acc).length ≤ MAX_HISTORY := by
      rw [hstep]
      exact (List.length_take _ _).trans_le (Nat.min_le_left _ _)
    calc (r :: rs).foldl (fun h r => addToHistory r h) acc
        = rs.foldl (fun h r => addToHistory r h) (addToHistory r acc) := rfl
      _ = (rs.reverse ++ addToHistory r acc).take MAX_HISTORY := ih _ hlen
      _ = (rs.reverse ++ (r :: acc).take MAX_HISTORY).take MAX_HISTORY := by
          rw [hstep]
      _ = (rs.reverse ++ (r :: acc)).take MAX_HISTORY := take_append_take _ _ _
      _ = ((r :: rs).reverse ++ acc).take MAX_HISTORY := by
          simp

/-- C10: after any sequence of `addToHistory` insertions starting from the
empty history, `getHistory` returns the insertions newest-first trimmed to
the most recent 100, and in particular holds at most 100 records. -/
theorem history_bound {α : Type} (recs : List α) :
    getHistory (recs.foldl (fun h r => addToHistory r h) []) =
      recs.reverse.take MAX_HISTORY ∧
    (recs.foldl (fun h r => addToHistory r h) []).length ≤ MAX_HISTORY := by
  have h := foldl_addToHistory recs [] (by simp)
  constructor
  · rw [getHistory, h]
    simp
  · rw [h]
    simp only [List.append_nil, List.length_take]
    exact Nat.min_le_left _ _

/-- C8: `computeSafetyScore` subtracts exactly the five documented penalties
from 100 — capped HTTP-error-rate, timeout-rate, conditional P95-excess and
avg-excess penalties, and a flat low-throughput penalty — rounds to the
nearest integer, clamps to [0, 100], and labels the result SAFE (≥ 80),
WARNING (50–79) or DANGEROUS (< 50).  `0 ≤ totalRequests` reflects that the
total is a count; with it, the code's guarded error rate agrees with the
claim's `100·(failed − timeoutCount)/total` (at `total = 0` both are 0). -/
theorem computeSafetyScore_spec (M : LoadTestMetrics)
    (htotal : 0 ≤ M.totalRequests) :
    (computeSafetyScore M).score =
      max 0 (min 100 (jsRound (100
        - min (100 * (M.failedRequests - M.timeoutCount) / M.totalRequests
            * (6 / 10)) 40
        - min (M.timeoutRatePercentage * (12 / 10)) 30
        - (if M.p95ResponseTime > 500 then
            min ((M.p95ResponseTime - 500) / 100 * 3) 25 else 0)
        - (if M.avgResponseTime > 300 then
            min ((M.avgResponseTime - 300) / 100 * 1) 10 else 0)
        - (if 0 < M.requestsPerSecond ∧ M.requestsPerSecond < 1 then 5
           else 0)))) ∧
    ((computeSafetyScore M).label = .SAFE ↔ 80 ≤ (computeSafetyScore M).score) ∧
    ((computeSafetyScore M).label = .WARNING ↔
      50 ≤ (computeSafetyScore M).score ∧ (computeSafetyScore M).score ≤ 79) ∧
    ((computeSafetyScore M).label = .DANGEROUS ↔
      (computeSafetyScore M).score < 50) := by
  have hrate : (if M.totalRequests > 0 then
        (M.failedRequests - M.timeoutCount) / M.totalRequests * 100 else 0)
      = 100 * (M.failedRequests - M.timeoutCount) / M.totalRequests := by
    split_ifs with h
    · ring
    · have hz : M.totalRequests = 0 := le_antisymm (not_lt.mp h) htotal
      rw [hz, div_zero]
  have hlab : (computeSafetyScore M).label =
      if (computeSafetyScore M).score < 50 then SafetyLabel.DANGEROUS
      else if (computeSafetyScore M).score < 80 then SafetyLabel.WARNING
      else SafetyLabel.SAFE := rfl
  refine ⟨?_, ?_, ?_, ?_⟩
  · simp only [computeSafetyScore, HTTP_ERROR_WEIGHT, HTTP_ERROR_CAP,
      TIMEOUT_WEIGHT, TIMEOUT_CAP, P95_THRESHOLD_MS, P95_PENALTY_PER_100MS,
      P95_CAP, AVG_THRESHOLD_MS, AVG_PENALTY_PER_100MS, AVG_CAP,
      LOW_RPS_THRESHOLD, LOW_RPS_PENALTY]
    rw [← hrate]
    congr 2
    split_ifs <;> ring
  · rw [hlab]
    split_ifs with h1 h2 <;> simp <;> omega
  · rw [hlab]
    split_ifs with h1 h2 <;> simp <;> omega
  · rw [hlab]
    split_ifs with h1 h2 <;> simp <;> omega

/-- C8 witness: the all-zero metrics record scores 100 and is SAFE. -/
theorem computeSafetyScore_spec_witness :
    0 ≤ (LoadTestMetrics.mk 0 0 0 0 0 0 0 0 0 0 0 0).totalRequests ∧
    (computeSafetyScore (LoadTestMetrics.mk 0 0 0 0 0 0 0 0 0 0 0 0)).score = 100 ∧
    (computeSafetyScore (LoadTestMetrics.mk 0 0 0 0 0 0 0 0 0 0 0 0)).label =
      .SAFE := by
  have h := computeSafetyScore_spec (LoadTestMetrics.mk 0 0 0 0 0 0 0 0 0 0 0 0)
    (by norm_num)
  have hscore :
      (computeSafetyScore (LoadTestMetrics.mk 0 0 0 0 0 0 0 0 0 0 0 0)).score =
        100 := by
    rw [h.1]
    norm_num [jsRound]
  exact ⟨by norm_num, hscore, h.2.1.mpr (by rw [hscore]; norm_num)⟩

/-! ## Rounding and percentile lemmas -/

/-- `jsRound` is monotone. -/
theorem jsRound_mono {x y : ℚ} (h : x ≤ y) : jsRound x ≤ jsRound y :=
  Int.floor_le_floor (by linarith)

/-- `round2` is monotone. -/
theorem round2_mono {x y : ℚ} (h : x ≤ y) : round2 x ≤ round2 y := by
  unfold round2
  have h2 : (jsRound (x * 100) : ℚ) ≤ (jsRound (y * 100) : ℚ) :=
    Int.cast_le.mpr (jsRound_mono (by linarith))
  exact (div_le_div_iff_of_pos_right (by norm_num)).mpr h2

/-- Integers are fixed by `round2`. -/
theorem round2_intCast (n : ℤ) : round2 (n : ℚ) = n := by
  unfold round2 jsRound
  rw [show ((n : ℚ) * 100 + 1 / 2) = ((n * 100 : ℤ) : ℚ) + 1 / 2 by
    push_cast
    ring]
  rw [Int.floor_int_add]
  norm_num

/-- `round2` is idempotent. -/
theorem round2_idem (x : ℚ) : round2 (round2 x) = round2 x := by
  unfold round2 jsRound
  rw [show ((⌊x * 100 + 1 / 2⌋ : ℚ) / 100 * 100 + 1 / 2) =
      ((⌊x * 100 + 1 / 2⌋ : ℤ) : ℚ) + 1 / 2 by ring]
  rw [Int.floor_int_add]
  norm_num

/-- The linear-interpolation formula of the spec at fractional rank
`(L−1)·p`: `v[⌊i⌋] + (i−⌊i⌋)·(v[⌈i⌉]−v[⌊i⌋])`. -/
def interpAtRank (v : List ℚ) (p : ℚ) : ℚ :=
  let i : ℚ := ((v.length : ℚ) - 1) * p
  v.getD (⌊i⌋).toNat 0 +
    (i - (⌊i⌋ : ℚ)) * (v.getD (⌈i⌉).toNat 0 - v.getD (⌊i⌋).toNat 0)

/-- On a nonempty list the source's `percentile` is exactly the spec's
interpolation formula (the `lower = upper` fast path coincides with the
formula because the fractional part is then zero). -/
theorem percentile_eq_interpAtRank (v : List ℚ) (p : ℚ) (hv : v ≠ []) :
    percentile v p = interpAtRank v p := by
  have hlen : ¬(v.length = 0) := by simpa using hv
  simp only [percentile, interpAtRank, if_neg hlen]
  set i : ℚ := ((v.length : ℚ) - 1) * p with hidef
  by_cases h : ⌊i⌋ = ⌈i⌉
  · rw [if_pos h]
    have hi : (⌊i⌋ : ℚ) = i := le_antisymm (Int.floor_le i)
      (by rw [h]; exact Int.le_ceil i)
    rw [show i - (⌊i⌋ : ℚ) = 0 by rw [hi]; ring]
    ring
  · rw [if_neg h]

/-- C2: whenever there is at least one success, `computeMetrics` returns p95
and p99 as the spec's linear interpolation at fractional ranks `(L−1)·0.95`
and `(L−1)·0.99` over the ascending successful response times, rounded to two
decimals, and the average as the mean rounded to two decimals. -/
theorem computeMetrics_percentiles (results : List RequestResult) (d : ℚ)
    (h : 0 < (sortedSuccessTimes results).length) :
    (computeMetrics results d).p95ResponseTime =
      round2 (interpAtRank (sortedSuccessTimes results) (95 / 100)) ∧
    (computeMetrics results d).p99ResponseTime =
      round2 (interpAtRank (sortedSuccessTimes results) (99 / 100)) ∧
    (computeMetrics results d).avgResponseTime =
      round2 ((successTimes results).sum / ((successTimes results).length : ℚ)) := by
  have hne : sortedSuccessTimes results ≠ [] := List.length_pos.mp h
  have hlen : (successTimes results).length = (sortedSuccessTimes results).length :=
    (List.perm_insertionSort _ _).length_eq.symm
  refine ⟨?_, ?_, ?_⟩
  · simp only [computeMetrics]
    rw [if_pos h, percentile_eq_interpAtRank _ _ hne]
  · simp only [computeMetrics]
    rw [if_pos h, percentile_eq_interpAtRank _ _ hne]
  · simp only [computeMetrics]
    rw [if_pos (hlen ▸ h)]

/-- Scenario S6: ten successful results with response times 10..100 ms. -/
def s6Results : List RequestResult :=
  [⟨10, true, none, none, 0⟩, ⟨20, true, none, none, 0⟩,
   ⟨30, true, none, none, 0⟩, ⟨40, true, none, none, 0⟩,
   ⟨50, true, none, none, 0⟩, ⟨60, true, none, none, 0⟩,
   ⟨70, true, none, none, 0⟩, ⟨80, true, none, none, 0⟩,
   ⟨90, true, none, none, 0⟩, ⟨100, true, none, none, 0⟩]

/-- C2 witness: scenario S6 — on successes [10,…,100] with d = 10,
p95 = 95.5 (rank 8.55), p99 = 99.1 (rank 8.91) and avg = 55. -/
theorem computeMetrics_percentiles_witness :
    0 < (sortedSuccessTimes s6Results).length ∧
    ((computeMetrics s6Results 10).p95ResponseTime = 191 / 2 ∧
     (computeMetrics s6Results 10).p99ResponseTime = 991 / 10 ∧
     (computeMetrics s6Results 10).avgResponseTime = 55) := by
  have hsorted : sortedSuccessTimes s6Results =
      [10, 20, 30, 40, 50, 60, 70, 80, 90, 100] := by
    norm_num [sortedSuccessTimes, successTimes, s6Results, List.filter,
      List.insertionSort]
  have hsucc : successTimes s6Results =
      [10, 20, 30, 40, 50, 60, 70, 80, 90, 100] := by
    norm_num [successTimes, s6Results, List.filter]
  have hlen : 0 < (sortedSuccessTimes s6Results).length := by
    rw [hsorted]
    norm_num
  have h95 : interpAtRank ([10, 20, 30, 40, 50, 60, 70, 80, 90, 100] : List ℚ)
      (95 / 100) = 191 / 2 := by
    simp only [interpAtRank, List.length_cons, List.length_nil]
    rw [show ((((0 : ℕ) + 1 + 1 + 1 + 1 + 1 + 1 + 1 + 1 + 1 + 1 : ℕ) : ℚ) - 1) *
        (95 / 100) = 171 / 20 by push_cast; norm_num]
    rw [show ⌊(171 : ℚ) / 20⌋ = 8 from by norm_num,
      show ⌈(171 : ℚ) / 20⌉ = 9 from by rw [Int.ceil_eq_iff]; norm_num]
    rw [show ((8 : ℤ).toNat) = 8 from rfl, show ((9 : ℤ).toNat) = 9 from rfl]
    simp only [List.getD_cons_zero, List.getD_cons_succ]
    norm_num
  have h99 : interpAtRank ([10, 20, 30, 40, 50, 60, 70, 80, 90, 100] : List ℚ)
      (99 / 100) = 991 / 10 := by
    simp only [interpAtRank, List.length_cons, List.length_nil]
    rw [show ((((0 : ℕ) + 1 + 1 + 1 + 1 + 1 + 1 + 1 + 1 + 1 + 1 : ℕ) : ℚ) - 1) *
        (99 / 100) = 891 / 100 by push_cast; norm_num]
    rw [show ⌊(891 : ℚ) / 100⌋ = 8 from by norm_num,
      show ⌈(891 : ℚ) / 100⌉ = 9 from by rw [Int.ceil_eq_iff]; norm_num]
    rw [show ((8 : ℤ).toNat) = 8 from rfl, show ((9 : ℤ).toNat) = 9 from rfl]
    simp only [List.getD_cons_zero, List.getD_cons_succ]
    norm_num
  have h := computeMetrics_percentiles s6Results 10 hlen
  refine ⟨hlen, ?_, ?_, ?_⟩
  · rw [h.1, hsorted, h95]
    norm_num [round2, jsRound]
  · rw [h.2.1, hsorted, h99]
    norm_num [round2, jsRound]
  · rw [h.2.2, hsucc]
    norm_num [round2, jsRound]

/-- `round2` fixes 0. -/
theorem round2_zero : round2 0 = 0 := by
  simpa using round2_intCast 0

/-- `round2` fixes 100. -/
theorem round2_hundred : round2 100 = 100 := by
  simpa using round2_intCast 100

/-- An in-range `getD` is a member of the list. -/
theorem getD_mem (l : List ℚ) (n : ℕ) (h : n < l.length) : l.getD n 0 ∈ l := by
  rw [List.getD_eq_getElem?_getD, List.getElem?_eq_getElem h, Option.getD_some]
  exact List.getElem_mem h

/-- On an ascending-sorted list, `getD` is monotone in in-range indices. -/
theorem sorted_getD_mono {l : List ℚ} (hs : l.Sorted (· ≤ ·)) {i j : ℕ}
    (hij : i ≤ j) (hj : j < l.length) : l.getD i 0 ≤ l.getD j 0 := by
  have hi : i < l.length := lt_of_le_of_lt hij hj
  rw [List.getD_eq_getElem?_getD, List.getElem?_eq_getElem hi, Option.getD_some,
      List.getD_eq_getElem?_getD, List.getElem?_eq_getElem hj, Option.getD_some]
  have := hs.rel_get_of_le (a := ⟨i, hi⟩) (b := ⟨j, hj⟩) (by exact hij)
  simpa [List.get_eq_getElem] using this

/-- The sorted successful response times are ascending. -/
theorem sortedSuccessTimes_sorted (results : List RequestResult) :
    (sortedSuccessTimes results).Sorted (· ≤ ·) :=
  List.sorted_insertionSort _ _

/-- The sorted successful response times are a permutation of the successful
response times. -/
theorem sortedSuccessTimes_perm (results : List RequestResult) :
    List.Perm (sortedSuccessTimes results) (successTimes results) :=
  List.perm_insertionSort _ _

/-- Every member of the sorted successful response times is the response time
of some successful result. -/
theorem mem_sortedSuccessTimes (results : List RequestResult) (x : ℚ)
    (hx : x ∈ sortedSuccessTimes results) :
    ∃ r ∈ results, r.success = true ∧ x = r.responseTimeMs := by
  have hx2 : x ∈ successTimes results := (sortedSuccessTimes_perm results).subset hx
  simp only [successTimes, List.mem_map, List.mem_filter] at hx2
  obtain ⟨r, ⟨hr, hsucc⟩, heq⟩ := hx2
  exact ⟨r, hr, hsucc, heq.symm⟩

/-- C9 counterexample: on the single successful result with the non-two-decimal
response time 1/3 ms, `minResponseTime` is returned unrounded: it equals 1/3,
which `round2` does not fix. -/
theorem metrics_rounding_counterexample :
    ¬(round2 ((computeMetrics [⟨1/3, true, none, none, 0⟩] 1).minResponseTime) =
      (computeMetrics [⟨1/3, true, none, none, 0⟩] 1).minResponseTime) := by
  have hsorted : sortedSuccessTimes [⟨1/3, true, none, none, 0⟩] = [1/3] := by
    norm_num [sortedSuccessTimes, successTimes, List.filter, List.insertionSort]
  have hmin : (computeMetrics [⟨1/3, true, none, none, 0⟩] 1).minResponseTime
      = 1/3 := by
    simp only [computeMetrics]
    rw [hsorted]
    norm_num [List.getD]
  rw [hmin]
  rw [show round2 (1/3 : ℚ) = 33/100 by
    unfold round2 jsRound
    rw [show ((1:ℚ)/3 * 100 + 1/2) = 203/6 by norm_num]
    rw [show ⌊(203:ℚ)/6⌋ = 33 from by norm_num]
    norm_num]
  norm_num

/-- C9 (amended): `avgResponseTime`, `p95ResponseTime` and `p99ResponseTime`
are rounded to two decimals (fixed by `round2`), the two percentages lie in
[0, 100] and are rounded to two decimals, while `minResponseTime` and
`maxResponseTime` are returned unrounded: each is 0 or one of the raw
successful response times (hence two-decimal values exactly when the inputs
are). -/
theorem metrics_rounding (results : List RequestResult) (d : ℚ) :
    round2 (computeMetrics results d).avgResponseTime =
      (computeMetrics results d).avgResponseTime ∧
    round2 (computeMetrics results d).p95ResponseTime =
      (computeMetrics results d).p95ResponseTime ∧
    round2 (computeMetrics results d).p99ResponseTime =
      (computeMetrics results d).p99ResponseTime ∧
    (0 ≤ (computeMetrics results d).errorRatePercentage ∧
      (computeMetrics results d).errorRatePercentage ≤ 100 ∧
      round2 (computeMetrics results d).errorRatePercentage =
        (computeMetrics results d).errorRatePercentage) ∧
    (0 ≤ (computeMetrics results d).timeoutRatePercentage ∧
      (computeMetrics results d).timeoutRatePercentage ≤ 100 ∧
      round2 (computeMetrics results d).timeoutRatePercentage =
        (computeMetrics results d).timeoutRatePercentage) ∧
    ((computeMetrics results d).minResponseTime = 0 ∨
      ∃ r ∈ results, r.success = true ∧
        (computeMetrics results d).minResponseTime = r.responseTimeMs) ∧
    ((computeMetrics results d).maxResponseTime = 0 ∨
      ∃ r ∈ results, r.success = true ∧
        (computeMetrics results d).maxResponseTime = r.responseTimeMs) := by
  have hsle : ((results.filter fun r => r.success).length : ℚ) ≤
      (results.length : ℚ) := by
    exact_mod_cast List.length_filter_le _ _
  have htle : ((results.filter fun r =>
      decide (r.error = some "timeout")).length : ℚ) ≤ (results.length : ℚ) := by
    exact_mod_cast List.length_filter_le _ _
  have hs0 : (0:ℚ) ≤ ((results.filter fun r => r.success).length : ℚ) := by
    positivity
  have ht0 : (0:ℚ) ≤ ((results.filter fun r =>
      decide (r.error = some "timeout")).length : ℚ) := by
    positivity
  refine ⟨?_, ?_, ?_, ?_, ?_, ?_, ?_⟩
  · simp only [computeMetrics]
    split_ifs with h
    · exact round2_idem _
    · exact round2_zero
  · simp only [computeMetrics]
    split_ifs with h
    · exact round2_idem _
    · exact round2_zero
  · simp only [computeMetrics]
    split_ifs with h
    · exact round2_idem _
    · exact round2_zero
  · simp only [computeMetrics]
    split_ifs with h
    · have hrate0 : (0:ℚ) ≤ ((results.length : ℚ) -
          ((results.filter fun r => r.success).length : ℚ)) /
          (results.length : ℚ) * 100 := by
        have : (0:ℚ) ≤ ((results.length : ℚ) -
            ((results.filter fun r => r.success).length : ℚ)) := by linarith
        have := div_nonneg this (le_of_lt h)
        linarith
      have hrate100 : ((results.length : ℚ) -
          ((results.filter fun r => r.success).length : ℚ)) /
          (results.length : ℚ) * 100 ≤ 100 := by
        have hle1 : ((results.length : ℚ) -
            ((results.filter fun r => r.success).length : ℚ)) /
            (results.length : ℚ) ≤ 1 :=
          (div_le_one h).mpr (by linarith)
        linarith
      refine ⟨?_, ?_, round2_idem _⟩
      · calc (0:ℚ) = round2 0 := round2_zero.symm
          _ ≤ _ := round2_mono hrate0
      · calc round2 _ ≤ round2 100 := round2_mono hrate100
          _ = 100 := round2_hundred
    · refine ⟨le_refl 0, by norm_num, round2_zero⟩
  · simp only [computeMetrics]
    split_ifs with h
    · have hrate0 : (0:ℚ) ≤ ((results.filter fun r =>
          decide (r.error = some "timeout")).length : ℚ) /
          (results.length : ℚ) * 100 := by
        have := div_nonneg ht0 (le_of_lt h)
        linarith
      have hrate100 : ((results.filter fun r =>
          decide (r.error = some "timeout")).length : ℚ) /
          (results.length : ℚ) * 100 ≤ 100 := by
        have hle1 : ((results.filter fun r =>
            decide (r.error = some "timeout")).length : ℚ) /
            (results.length : ℚ) ≤ 1 :=
          (div_le_one h).mpr htle
        linarith
      refine ⟨?_, ?_, round2_idem _⟩
      · calc (0:ℚ) = round2 0 := round2_zero.symm
          _ ≤ _ := round2_mono hrate0
      · calc round2 _ ≤ round2 100 := round2_mono hrate100
          _ = 100 := round2_hundred
    · refine ⟨le_refl 0, by norm_num, round2_zero⟩
  · simp only [computeMetrics]
    split_ifs with h
    · refine Or.inr ?_
      exact mem_sortedSuccessTimes results _ (getD_mem _ 0 h)
    · exact Or.inl rfl
  · simp only [computeMetrics]
    split_ifs with h
    · refine Or.inr ?_
      exact mem_sortedSuccessTimes results _
        (getD_mem _ _ (Nat.sub_lt h Nat.one_pos))
    · exact Or.inl rfl

/-! ## Percentile order lemmas (C7) -/

/-- The interpolated value at real rank `i` — the body shared by
`percentile` and `interpAtRank` once the rank is computed. -/
def rankValue (v : List ℚ) (i : ℚ) : ℚ :=
  v.getD (⌊i⌋).toNat 0 +
    (i - (⌊i⌋ : ℚ)) * (v.getD (⌈i⌉).toNat 0 - v.getD (⌊i⌋).toNat 0)

/-- `interpAtRank` is `rankValue` at rank `(L−1)·p`. -/
theorem interpAtRank_eq_rankValue (v : List ℚ) (p : ℚ) :
    interpAtRank v p = rankValue v (((v.length : ℚ) - 1) * p) := rfl

/-- In-range index facts for a rank `i ∈ [0, L−1]`. -/
theorem rank_index_lt {v : List ℚ} {i : ℚ} (h0 : 0 ≤ i)
    (hL : i ≤ (v.length : ℚ) - 1) : (⌈i⌉).toNat < v.length := by
  have hlen1 : 1 ≤ v.length := by
    rcases Nat.eq_zero_or_pos v.length with hz | hp
    · rw [hz] at hL
      norm_num at hL
      linarith
    · exact hp
  have hceil : ⌈i⌉ ≤ (v.length : ℤ) - 1 := Int.ceil_le.mpr (by push_cast; linarith)
  have h2 : (⌈i⌉).toNat ≤ ((v.length : ℤ) - 1).toNat := Int.toNat_le_toNat hceil
  omega

/-- The rank value is at least the value at the floor index. -/
theorem rankValue_ge_floor {v : List ℚ} (hs : v.Sorted (· ≤ ·)) {i : ℚ}
    (h0 : 0 ≤ i) (hL : i ≤ (v.length : ℚ) - 1) :
    v.getD (⌊i⌋).toNat 0 ≤ rankValue v i := by
  have hui := rank_index_lt h0 hL
  have hli : (⌊i⌋).toNat ≤ (⌈i⌉).toNat := Int.toNat_le_toNat (Int.floor_le_ceil i)
  have hab := sorted_getD_mono hs hli hui
  have hfr0 : 0 ≤ i - (⌊i⌋ : ℚ) := sub_nonneg.mpr (Int.floor_le i)
  unfold rankValue
  nlinarith [mul_nonneg hfr0 (sub_nonneg.mpr hab)]

/-- The rank value is at most the value at the ceiling index. -/
theorem rankValue_le_ceil {v : List ℚ} (hs : v.Sorted (· ≤ ·)) {i : ℚ}
    (h0 : 0 ≤ i) (hL : i ≤ (v.length : ℚ) - 1) :
    rankValue v i ≤ v.getD (⌈i⌉).toNat 0 := by
  have hui := rank_index_lt h0 hL
  have hli : (⌊i⌋).toNat ≤ (⌈i⌉).toNat := Int.toNat_le_toNat (Int.floor_le_ceil i)
  have hab := sorted_getD_mono hs hli hui
  have hfr1 : i - (⌊i⌋ : ℚ) ≤ 1 := by
    have := Int.lt_floor_add_one i
    linarith
  unfold rankValue
  nlinarith [mul_nonneg (by linarith : (0:ℚ) ≤ 1 - (i - (⌊i⌋ : ℚ)))
    (sub_nonneg.mpr hab)]

/-- The rank value lies between the first and last entries. -/
theorem rankValue_bounds {v : List ℚ} (hs : v.Sorted (· ≤ ·)) {i : ℚ}
    (h0 : 0 ≤ i) (hL : i ≤ (v.length : ℚ) - 1) :
    v.getD 0 0 ≤ rankValue v i ∧ rankValue v i ≤ v.getD (v.length - 1) 0 := by
  have hui := rank_index_lt h0 hL
  have hli : (⌊i⌋).toNat ≤ (⌈i⌉).toNat := Int.toNat_le_toNat (Int.floor_le_ceil i)
  constructor
  · calc v.getD 0 0 ≤ v.getD (⌊i⌋).toNat 0 :=
        sorted_getD_mono hs (Nat.zero_le _) (lt_of_le_of_lt hli hui)
      _ ≤ rankValue v i := rankValue_ge_floor hs h0 hL
  · calc rankValue v i ≤ v.getD (⌈i⌉).toNat 0 := rankValue_le_ceil hs h0 hL
      _ ≤ v.getD (v.length - 1) 0 := sorted_getD_mono hs (by omega) (by omega)

/-- The rank value is monotone in the rank. -/
theorem rankValue_mono {v : List ℚ} (hs : v.Sorted (· ≤ ·)) {i j : ℚ}
    (h0 : 0 ≤ i) (hij : i ≤ j) (hL : j ≤ (v.length : ℚ) - 1) :
    rankValue v i ≤ rankValue v j := by
  have h0j : 0 ≤ j := le_trans h0 hij
  have hLi : i ≤ (v.length : ℚ) - 1 := le_trans hij hL
  have hfl : ⌊i⌋ ≤ ⌊j⌋ := Int.floor_le_floor hij
  rcases lt_or_eq_of_le hfl with hlt | heq
  · -- the floors differ: pass through the intermediate entries
    have hstep : (⌈i⌉).toNat ≤ (⌊j⌋).toNat := by
      have h1 : ⌈i⌉ ≤ ⌊i⌋ + 1 := Int.ceil_le_floor_add_one i
      exact Int.toNat_le_toNat (by omega)
    have hjlt : (⌊j⌋).toNat < v.length := by
      have h1 : (⌊j⌋).toNat ≤ (⌈j⌉).toNat := Int.toNat_le_toNat (Int.floor_le_ceil j)
      exact lt_of_le_of_lt h1 (rank_index_lt h0j hL)
    calc rankValue v i ≤ v.getD (⌈i⌉).toNat 0 := rankValue_le_ceil hs h0 hLi
      _ ≤ v.getD (⌊j⌋).toNat 0 := sorted_getD_mono hs hstep hjlt
      _ ≤ rankValue v j := rankValue_ge_floor hs h0j hL
  · -- equal floors
    by_cases hceq : ⌈i⌉ = ⌊i⌋
    · -- `i` is an integer: its rank value is the floor entry
      have hint : (⌊i⌋ : ℚ) = i :=
        le_antisymm (Int.floor_le i) (by rw [← hceq]; exact Int.le_ceil i)
      have hv : rankValue v i = v.getD (⌊i⌋).toNat 0 := by
        unfold rankValue
        rw [show i - (⌊i⌋ : ℚ) = 0 by rw [hint]; ring]
        ring
      rw [hv, heq]
      exact rankValue_ge_floor hs h0j hL
    · -- `i` is not an integer, so neither is `j` (same floor), and the
      -- interpolation endpoints coincide
      have hci : ⌈i⌉ = ⌊i⌋ + 1 := by
        have h1 : ⌈i⌉ ≤ ⌊i⌋ + 1 := Int.ceil_le_floor_add_one i
        have h2 : ⌊i⌋ ≤ ⌈i⌉ := Int.floor_le_ceil i
        omega
      have hcj : ⌈j⌉ = ⌊j⌋ + 1 := by
        by_contra hne
        have h1 : ⌈j⌉ ≤ ⌊j⌋ + 1 := Int.ceil_le_floor_add_one j
        have h2 : ⌊j⌋ ≤ ⌈j⌉ := Int.floor_le_ceil j
        have hjc : ⌈j⌉ = ⌊j⌋ := by omega
        have hintj : (⌊j⌋ : ℚ) = j :=
          le_antisymm (Int.floor_le j) (by rw [← hjc]; exact Int.le_ceil j)
        have hij2 : i = j := le_antisymm hij (by
          rw [← hintj, ← heq]
          exact Int.floor_le i)
        rw [hij2] at hceq
        exact hceq hjc
      have hsame : (⌈i⌉).toNat = (⌈j⌉).toNat := by rw [hci, hcj, heq]
      have hui := rank_index_lt h0j hL
      have hli : (⌊j⌋).toNat ≤ (⌈j⌉).toNat :=
        Int.toNat_le_toNat (Int.floor_le_ceil j)
      have hab := sorted_getD_mono hs hli hui
      unfold rankValue
      rw [heq, hsame]
      nlinarith [sub_nonneg.mpr hab, sub_nonneg.mpr hij]

/-- The mean of a sorted nonempty list lies between its first and last
entries. -/
theorem mean_bounds {v : List ℚ} (hs : v.Sorted (· ≤ ·)) (h : 0 < v.length) :
    v.getD 0 0 ≤ v.sum / (v.length : ℚ) ∧
    v.sum / (v.length : ℚ) ≤ v.getD (v.length - 1) 0 := by
  have hbounds : ∀ x ∈ v, v.getD 0 0 ≤ x ∧ x ≤ v.getD (v.length - 1) 0 := by
    intro x hx
    obtain ⟨k, hk, hget⟩ := List.getElem_of_mem hx
    have hxd : v.getD k 0 = x := by
      rw [List.getD_eq_getElem?_getD, List.getElem?_eq_getElem hk,
        Option.getD_some, hget]
    constructor
    · rw [← hxd]
      exact sorted_getD_mono hs (Nat.zero_le k) hk
    · rw [← hxd]
      exact sorted_getD_mono hs (by omega) (by omega)
  have hpos : (0:ℚ) < (v.length : ℚ) := by exact_mod_cast h
  constructor
  · rw [le_div_iff hpos]
    have hle := List.card_nsmul_le_sum v (v.getD 0 0) fun x hx => (hbounds x hx).1
    rw [nsmul_eq_mul] at hle
    linarith
  · rw [div_le_iff hpos]
    have hle := List.sum_le_card_nsmul v (v.getD (v.length - 1) 0)
      fun x hx => (hbounds x hx).2
    rw [nsmul_eq_mul] at hle
    linarith

/-- Core order facts on a sorted nonempty list whose first and last entries
are fixed by `round2`: the rounded mean and rounded interpolated p95/p99 all
lie between the first and last entries, and p95 ≤ p99. -/
theorem ordered_stats {v : List ℚ} (hs : v.Sorted (· ≤ ·)) (h : 0 < v.length)
    (hfixmin : round2 (v.getD 0 0) = v.getD 0 0)
    (hfixmax : round2 (v.getD (v.length - 1) 0) = v.getD (v.length - 1) 0) :
    v.getD 0 0 ≤ round2 (v.sum / (v.length : ℚ)) ∧
    round2 (v.sum / (v.length : ℚ)) ≤ v.getD (v.length - 1) 0 ∧
    v.getD 0 0 ≤ round2 (percentile v (95 / 100)) ∧
    round2 (percentile v (95 / 100)) ≤ round2 (percentile v (99 / 100)) ∧
    round2 (percentile v (99 / 100)) ≤ v.getD (v.length - 1) 0 := by
  have hne : v ≠ [] := List.length_pos.mp h
  have hL1 : (1:ℚ) ≤ (v.length : ℚ) := by exact_mod_cast h
  have hi95_0 : 0 ≤ ((v.length : ℚ) - 1) * (95 / 100) := by nlinarith
  have hi99_0 : 0 ≤ ((v.length : ℚ) - 1) * (99 / 100) := by nlinarith
  have hi95_L : ((v.length : ℚ) - 1) * (95 / 100) ≤ (v.length : ℚ) - 1 := by
    nlinarith
  have hi99_L : ((v.length : ℚ) - 1) * (99 / 100) ≤ (v.length : ℚ) - 1 := by
    nlinarith
  have hi9599 : ((v.length : ℚ) - 1) * (95 / 100) ≤
      ((v.length : ℚ) - 1) * (99 / 100) := by nlinarith
  have hp95 : percentile v (95 / 100) =
      rankValue v (((v.length : ℚ) - 1) * (95 / 100)) := by
    rw [percentile_eq_interpAtRank v _ hne, interpAtRank_eq_rankValue]
  have hp99 : percentile v (99 / 100) =
      rankValue v (((v.length : ℚ) - 1) * (99 / 100)) := by
    rw [percentile_eq_interpAtRank v _ hne, interpAtRank_eq_rankValue]
  have hmean := mean_bounds hs h
  have hb95 := rankValue_bounds hs hi95_0 hi95_L
  have hb99 := rankValue_bounds hs hi99_0 hi99_L
  refine ⟨?_, ?_, ?_, ?_, ?_⟩
  · calc v.getD 0 0 = round2 (v.getD 0 0) := hfixmin.symm
      _ ≤ round2 (v.sum / (v.length : ℚ)) := round2_mono hmean.1
  · calc round2 (v.sum / (v.length : ℚ)) ≤
        round2 (v.getD (v.length - 1) 0) := round2_mono hmean.2
      _ = v.getD (v.length - 1) 0 := hfixmax
  · rw [hp95]
    calc v.getD 0 0 = round2 (v.getD 0 0) := hfixmin.symm
      _ ≤ round2 (rankValue v (((v.length : ℚ) - 1) * (95 / 100))) :=
        round2_mono hb95.1
  · rw [hp95, hp99]
    exact round2_mono (rankValue_mono hs hi95_0 hi9599 hi99_L)
  · rw [hp99]
    calc round2 (rankValue v (((v.length : ℚ) - 1) * (99 / 100))) ≤
        round2 (v.getD (v.length - 1) 0) := round2_mono hb99.2
      _ = v.getD (v.length - 1) 0 := hfixmax

/-- C7 (amended): for every result list with at least one success whose
successful response times are integers (as the engine produces — they are
`Date.now()` differences in whole ms), the metrics satisfy
`min ≤ avg ≤ max` and `min ≤ p95 ≤ p99 ≤ max`.  The middle link `avg ≤ p95`
of the claimed chain is dropped: it is false (see the counterexample). -/
theorem metrics_order (results : List RequestResult) (d : ℚ)
    (hs : ∃ r ∈ results, r.success = true)
    (hint : ∀ r ∈ results, r.success = true →
      ∃ n : ℤ, r.responseTimeMs = (n : ℚ)) :
    (computeMetrics results d).minResponseTime ≤
      (computeMetrics results d).avgResponseTime ∧
    (computeMetrics results d).avgResponseTime ≤
      (computeMetrics results d).maxResponseTime ∧
    (computeMetrics results d).minResponseTime ≤
      (computeMetrics results d).p95ResponseTime ∧
    (computeMetrics results d).p95ResponseTime ≤
      (computeMetrics results d).p99ResponseTime ∧
    (computeMetrics results d).p99ResponseTime ≤
      (computeMetrics results d).maxResponseTime := by
  obtain ⟨r0, hr0, hr0s⟩ := hs
  have hmem0 : r0 ∈ results.filter (fun r => r.success) :=
    List.mem_filter.mpr ⟨hr0, hr0s⟩
  have hlen1 : 0 < (successTimes results).length := by
    simp only [successTimes, List.length_map]
    exact List.length_pos.mpr (List.ne_nil_of_mem hmem0)
  have hlen : 0 < (sortedSuccessTimes results).length := by
    rw [(sortedSuccessTimes_perm results).length_eq]
    exact hlen1
  have hsorted := sortedSuccessTimes_sorted results
  have hminmem := getD_mem (sortedSuccessTimes results) 0 hlen
  have hmaxmem := getD_mem (sortedSuccessTimes results)
    ((sortedSuccessTimes results).length - 1) (by omega)
  obtain ⟨rmin, hrmin, hrmins, hminq⟩ :=
    mem_sortedSuccessTimes results _ hminmem
  obtain ⟨rmax, hrmax, hrmaxs, hmaxq⟩ :=
    mem_sortedSuccessTimes results _ hmaxmem
  obtain ⟨nmin, hnmin⟩ := hint rmin hrmin hrmins
  obtain ⟨nmax, hnmax⟩ := hint rmax hrmax hrmaxs
  have hfixmin : round2 ((sortedSuccessTimes results).getD 0 0) =
      (sortedSuccessTimes results).getD 0 0 := by
    rw [hminq, hnmin]
    exact round2_intCast nmin
  have hfixmax : round2 ((sortedSuccessTimes results).getD
      ((sortedSuccessTimes results).length - 1) 0) =
      (sortedSuccessTimes results).getD
        ((sortedSuccessTimes results).length - 1) 0 := by
    rw [hmaxq, hnmax]
    exact round2_intCast nmax
  have hcore := ordered_stats hsorted hlen hfixmin hfixmax
  have hsum : (successTimes results).sum = (sortedSuccessTimes results).sum :=
    ((sortedSuccessTimes_perm results).sum_eq).symm
  have hlen_eq : (successTimes results).length =
      (sortedSuccessTimes results).length :=
    (sortedSuccessTimes_perm results).length_eq.symm
  refine ⟨?_, ?_, ?_, ?_, ?_⟩
  · simp only [computeMetrics]
    rw [if_pos hlen, if_pos hlen1, hsum, hlen_eq]
    exact hcore.1
  · simp only [computeMetrics]
    rw [if_pos hlen, if_pos hlen1, hsum, hlen_eq]
    exact hcore.2.1
  · simp only [computeMetrics]
    rw [if_pos hlen, if_pos hlen]
    exact hcore.2.2.1
  · simp only [computeMetrics]
    rw [if_pos hlen, if_pos hlen]
    exact hcore.2.2.2.1
  · simp only [computeMetrics]
    rw [if_pos hlen, if_pos hlen]
    exact hcore.2.2.2.2

/-- C7 (amended) witness: a single successful result with an integer response
time satisfies the ordered chain. -/
theorem metrics_order_witness :
    ((∃ r ∈ ([⟨7, true, none, none, 0⟩] : List RequestResult),
        r.success = true) ∧
     (∀ r ∈ ([⟨7, true, none, none, 0⟩] : List RequestResult),
        r.success = true → ∃ n : ℤ, r.responseTimeMs = (n : ℚ))) ∧
    ((computeMetrics [⟨7, true, none, none, 0⟩] 1).minResponseTime ≤
      (computeMetrics [⟨7, true, none, none, 0⟩] 1).avgResponseTime ∧
     (computeMetrics [⟨7, true, none, none, 0⟩] 1).avgResponseTime ≤
      (computeMetrics [⟨7, true, none, none, 0⟩] 1).maxResponseTime ∧
     (computeMetrics [⟨7, true, none, none, 0⟩] 1).minResponseTime ≤
      (computeMetrics [⟨7, true, none, none, 0⟩] 1).p95ResponseTime ∧
     (computeMetrics [⟨7, true, none, none, 0⟩] 1).p95ResponseTime ≤
      (computeMetrics [⟨7, true, none, none, 0⟩] 1).p99ResponseTime ∧
     (computeMetrics [⟨7, true, none, none, 0⟩] 1).p99ResponseTime ≤
      (computeMetrics [⟨7, true, none, none, 0⟩] 1).maxResponseTime) := by
  have hs : ∃ r ∈ ([⟨7, true, none, none, 0⟩] : List RequestResult),
      r.success = true :=
    ⟨⟨7, true, none, none, 0⟩, List.mem_singleton.mpr rfl, rfl⟩
  have hint : ∀ r ∈ ([⟨7, true, none, none, 0⟩] : List RequestResult),
      r.success = true → ∃ n : ℤ, r.responseTimeMs = (n : ℚ) := by
    intro r hr _
    simp only [List.mem_singleton] at hr
    subst hr
    exact ⟨7, by norm_num⟩
  exact ⟨⟨hs, hint⟩, metrics_order [⟨7, true, none, none, 0⟩] 1 hs hint⟩

/-- Twenty-one successful results with integer response times: twenty at 0 ms
and one at 1000 ms.  The p95 rank is the integer 19, so p95 = 0, while the
mean is 1000/21 ≈ 47.6. -/
def c7Results : List RequestResult :=
  [⟨0, true, none, none, 0⟩, ⟨0, true, none, none, 0⟩, ⟨0, true, none, none, 0⟩, ⟨0, true, none, none, 0⟩, ⟨0, true, none, none, 0⟩, ⟨0, true, none, none, 0⟩, ⟨0, true, none, none, 0⟩, ⟨0, true, none, none, 0⟩, ⟨0, true, none, none, 0⟩, ⟨0, true, none, none, 0⟩, ⟨0, true, none, none, 0⟩, ⟨0, true, none, none, 0⟩, ⟨0, true, none, none, 0⟩, ⟨0, true, none, none, 0⟩, ⟨0, true, none, none, 0⟩, ⟨0, true, none, none, 0⟩, ⟨0, true, none, none, 0⟩, ⟨0, true, none, none, 0⟩, ⟨0, true, none, none, 0⟩, ⟨0, true, none, none, 0⟩,
   ⟨1000, true, none, none, 0⟩]

/-- C7 counterexample: on `c7Results` — all response times integers, 21
successes — the claimed chain fails at its middle link: avg ≈ 47.62 while
p95 = 0, so ¬(avg ≤ p95). -/
theorem metrics_order_counterexample :
    (∃ r ∈ c7Results, r.success = true) ∧
    (∀ r ∈ c7Results, r.success = true → ∃ n : ℤ, r.responseTimeMs = (n : ℚ)) ∧
    ¬((computeMetrics c7Results 1).avgResponseTime ≤
      (computeMetrics c7Results 1).p95ResponseTime) := by
  have hsucc : successTimes c7Results =
      [0, 0, 0, 0, 0, 0, 0, 0, 0, 0, 0, 0, 0, 0, 0, 0, 0, 0, 0, 0, 1000] := by
    norm_num [successTimes, c7Results, List.filter]
  have hsorted : sortedSuccessTimes c7Results =
      [0, 0, 0, 0, 0, 0, 0, 0, 0, 0, 0, 0, 0, 0, 0, 0, 0, 0, 0, 0, 1000] := by
    rw [sortedSuccessTimes, hsucc]
    norm_num [List.insertionSort]
  have hperc : percentile
      ([0, 0, 0, 0, 0, 0, 0, 0, 0, 0, 0, 0, 0, 0, 0, 0, 0, 0, 0, 0, 1000] :
        List ℚ) (95 / 100) = 0 := by
    simp only [percentile, List.length_cons, List.length_nil]
    rw [if_neg (by norm_num)]
    rw [show ((((0 : ℕ) + 1 + 1 + 1 + 1 + 1 + 1 + 1 + 1 + 1 + 1 + 1 + 1 + 1 +
        1 + 1 + 1 + 1 + 1 + 1 + 1 + 1 : ℕ) : ℚ) - 1) * (95 / 100) = 19 by
      push_cast
      norm_num]
    rw [show ⌊(19 : ℚ)⌋ = 19 from by norm_num]
    rw [show ⌈(19 : ℚ)⌉ = 19 from by rw [Int.ceil_eq_iff] <;> norm_num]
    rw [if_pos rfl]
    rw [show ((19 : ℤ).toNat) = 19 from rfl]
    simp only [List.getD_cons_zero, List.getD_cons_succ]
  have hp95 : (computeMetrics c7Results 1).p95ResponseTime = 0 := by
    simp only [computeMetrics]
    rw [hsorted]
    rw [if_pos (by norm_num), hperc, round2_zero]
  have havg : (computeMetrics c7Results 1).avgResponseTime = 2381 / 50 := by
    simp only [computeMetrics]
    rw [hsucc]
    rw [if_pos (by norm_num)]
    rw [show ([0, 0, 0, 0, 0, 0, 0, 0, 0, 0, 0, 0, 0, 0, 0, 0, 0, 0, 0, 0,
        1000] : List ℚ).sum /
        (([0, 0, 0, 0, 0, 0, 0, 0, 0, 0, 0, 0, 0, 0, 0, 0, 0, 0, 0, 0,
        1000] : List ℚ).length : ℚ) = 1000 / 21 by norm_num]
    unfold round2 jsRound
    rw [show ((1000 : ℚ) / 21 * 100 + 1 / 2) = 200021 / 42 by norm_num]
    rw [show ⌊(200021 : ℚ) / 42⌋ = 4762 from by norm_num]
    norm_num
  refine ⟨⟨⟨1000, true, none, none, 0⟩, ?_, rfl⟩, ?_, ?_⟩
  · simp [c7Results]
  · intro r hr _
    simp only [c7Results, List.mem_cons, List.not_mem_nil, or_false] at hr
    rcases hr with rfl | rfl | rfl | rfl | rfl | rfl | rfl | rfl | rfl | rfl | rfl | rfl | rfl | rfl | rfl | rfl | rfl | rfl | rfl | rfl | rfl
    · exact ⟨0, by norm_num⟩
    · exact ⟨0, by norm_num⟩
    · exact ⟨0, by norm_num⟩
    · exact ⟨0, by norm_num⟩
    · exact ⟨0, by norm_num⟩
    · exact ⟨0, by norm_num⟩
    · exact ⟨0, by norm_num⟩
    · exact ⟨0, by norm_num⟩
    · exact ⟨0, by norm_num⟩
    · exact ⟨0, by norm_num⟩
    · exact ⟨0, by norm_num⟩
    · exact ⟨0, by norm_num⟩
    · exact ⟨0, by norm_num⟩
    · exact ⟨0, by norm_num⟩
    · exact ⟨0, by norm_num⟩
    · exact ⟨0, by norm_num⟩
    · exact ⟨0, by norm_num⟩
    · exact ⟨0, by norm_num⟩
    · exact ⟨0, by norm_num⟩
    · exact ⟨0, by norm_num⟩
    · exact ⟨1000, by norm_num⟩
  · rw [hp95, havg]
    norm_num

end LoadBot
